import Mathlib

/-!
Shallow embedding of the MCP platform core (tool registry, authorization,
audit sink, execution pipeline, conversation store, agent loop), translated
from the Python sources under `src/`, together with theorems settling the
spec claims about it.
-/

namespace MCP

/-- JSON-like values, the shallow embedding of Python `Any` values that flow
through tool parameters, results and audit entries (dicts, lists, strings,
numbers, booleans, null). -/
inductive JsonValue where
  | str (s : String)
  | num (n : Int)
  | boolVal (b : Bool)
  | null
  | arr (items : List JsonValue)
  | obj (fields : List (String × JsonValue))

/-- A Python `dict[str, Any]` as an insertion-ordered association list. -/
abbrev JsonDict := List (String × JsonValue)

/-- `AuditLogger.SENSITIVE_PARAMS` from `mcp_server/audit.py`: parameter names
whose values are redacted in audit logs. -/
def SENSITIVE_PARAMS : List String :=
  ["password", "token", "secret", "api_key", "apikey", "credential"]

/-- Python's `str.lower()` (ASCII case folding, which is all the denylist
comparison exercises), mapped over the string's characters. -/
def pyLower (s : String) : String :=
  ⟨s.data.map Char.toLower⟩

/-- Python's `c in s` for a single-character needle, over the string's
characters. -/
def pyContains (s : String) (c : Char) : Bool :=
  s.data.contains c

/-- Python's `str.split(sep)` for a single-character separator, over a
character list: always returns at least one (possibly empty) piece. -/
def splitOnChar (c : Char) : List Char → List (List Char)
  | [] => [[]]
  | x :: xs =>
    match splitOnChar c xs with
    | [] => [[x]]
    | y :: ys => if x = c then [] :: y :: ys else (x :: y) :: ys

/-- Python's `s.split(sep)[-1]` for a single-character separator. -/
def lastSplitPiece (s : String) (c : Char) : String :=
  ((splitOnChar c s.data).map (fun l => String.mk l)).getLastD s

/-- `AuditLogger._redact_sensitive` from `mcp_server/audit.py`: walks the
parameter dict; a key whose lowercase form is in the denylist gets the
redaction marker, a dict value is redacted recursively, anything else passes
through unchanged. -/
def redactSensitive : JsonDict → JsonDict
  | [] => []
  | (k, v) :: rest =>
    if pyLower k ∈ SENSITIVE_PARAMS then
      (k, JsonValue.str "[REDACTED]") :: redactSensitive rest
    else
      match v with
      | JsonValue.obj fields => (k, JsonValue.obj (redactSensitive fields)) :: redactSensitive rest
      | _ => (k, v) :: redactSensitive rest
termination_by d => sizeOf d

/-! ## Data model (`shared/models.py`) -/

/-- `ExecutionType` from `shared/models.py`. -/
inductive ExecutionType where
  | read
  | write
  deriving Repr, DecidableEq

/-- `PermissionLevel` from `shared/models.py`. -/
inductive PermissionLevel where
  | publicLevel
  | userLevel
  | adminLevel
  | systemLevel
  deriving Repr, DecidableEq

/-- `Permission` from `shared/models.py` (level defaults to `user`,
role/scope lists default to empty). -/
structure Permission where
  level : PermissionLevel := .userLevel
  roles : List String := []
  scopes : List String := []
  deriving Repr, DecidableEq

/-- `ToolDefinition` from `shared/models.py`, restricted to the fields the
core pipeline reads (`output_schema`, `tags`, `examples`, `version` are
carried by no claim and omitted). -/
structure ToolDefinition where
  name : String
  domain : String
  description : String := ""
  input_schema : JsonDict := []
  execution_type : ExecutionType := .read
  permissions : Permission := {}
  deprecated : Bool := false

/-- `ToolDefinition.qualified_name` from `shared/models.py`:
`f"{domain}.{name}"` unless the name already contains a dot. -/
def ToolDefinition.qualified_name (t : ToolDefinition) : String :=
  if pyContains t.name '.' then t.name else t.domain ++ "." ++ t.name

/-- `UserContext` from `shared/models.py` (identity fields used by the
core; `email`/`metadata` omitted). -/
structure UserContext where
  user_id : String
  username : String
  roles : List String := []
  permissions : List String := []
  deriving Repr, DecidableEq

/-- `ExecutionContext` from `shared/models.py` (fields the pipeline reads). -/
structure ExecutionContext where
  request_id : String
  user : UserContext
  correlation_id : Option String := none
  deriving Repr, DecidableEq

/-- `ToolCall` from `shared/models.py`. -/
structure ToolCall where
  tool_name : String
  parameters : JsonDict := []
  context : ExecutionContext

/-- `ToolResultStatus` from `shared/models.py`. -/
inductive ToolResultStatus where
  | success
  | error
  | unauthorized
  | not_found
  | validation_error
  | timeout
  deriving Repr, DecidableEq

/-- The `.value` string of a `ToolResultStatus` member. -/
def ToolResultStatus.value : ToolResultStatus → String
  | .success => "success"
  | .error => "error"
  | .unauthorized => "unauthorized"
  | .not_found => "not_found"
  | .validation_error => "validation_error"
  | .timeout => "timeout"

/-- `ToolResult` from `shared/models.py`. `execution_time_ms` defaults to `0`
(wall-clock milliseconds are modelled as a natural number). -/
structure ToolResult where
  tool_name : String
  status : ToolResultStatus
  data : Option JsonValue := none
  error : Option String := none
  error_code : Option String := none
  execution_time_ms : Nat := 0

/-- `AuditEntry` from `shared/models.py` (the generated `id` and the
`timestamp` are supplied by the caller of `create_entry` in this model,
standing for `uuid.uuid4()` and `datetime.utcnow()`). -/
structure AuditEntry where
  id : String
  timestamp : Nat
  user_id : String
  username : String
  tool_name : String
  domain : String
  execution_type : ExecutionType
  parameters : JsonDict
  status : ToolResultStatus
  error : Option String := none
  execution_time_ms : Nat := 0
  request_id : String
  correlation_id : Option String := none

/-! ## Authorization (`mcp_server/auth.py`) -/

/-- `authorize_request` from `mcp_server/auth.py`: the ordered permission
gates (public, system, admin, required roles, required scopes), returning
`(is_authorized, error_message)`. The `context` argument is accepted, as in
the source, but never inspected. -/
def authorize_request (tool : ToolDefinition) (user : UserContext)
    (context : ExecutionContext) : Bool × Option String :=
  let _ := context
  let permission := tool.permissions
  if permission.level = .publicLevel then
    (true, none)
  else if permission.level = .systemLevel ∧ "system" ∉ user.roles then
    (false, some "System-level access required")
  else if permission.level = .adminLevel ∧ "admin" ∉ user.roles then
    (false, some "Admin access required")
  else if permission.roles ≠ [] ∧ ¬ permission.roles.any (· ∈ user.roles) then
    (false, some ("Required roles: " ++ String.intercalate ", " permission.roles))
  else if permission.scopes ≠ [] ∧ ¬ permission.scopes.any (· ∈ user.permissions) then
    (false, some ("Required scopes: " ++ String.intercalate ", " permission.scopes))
  else
    (true, none)

/-- The authorization gates named by the spec (§4.2), in their fixed order. -/
inductive AuthGate where
  | systemGate
  | adminGate
  | rolesGate
  | scopesGate
  deriving Repr, DecidableEq

/-- Modelled from the spec §4.2: `authorize(tool, identity) -> allow |
deny(gate)`, evaluating the gates in the fixed order public, system, admin,
required-roles, required-scopes, the first failing check winning. Written
from the spec's words, to be compared with `authorize_request`. -/
def authorizeSpec (tool : ToolDefinition) (user : UserContext) : Option AuthGate :=
  let p := tool.permissions
  if p.level = .publicLevel then none
  else if p.level = .systemLevel ∧ "system" ∉ user.roles then some .systemGate
  else if p.level = .adminLevel ∧ "admin" ∉ user.roles then some .adminGate
  else if p.roles ≠ [] ∧ ¬ p.roles.any (· ∈ user.roles) then some .rolesGate
  else if p.scopes ≠ [] ∧ ¬ p.scopes.any (· ∈ user.permissions) then some .scopesGate
  else none

/-- The human-readable reason the code attaches to each failing gate. -/
def gateReason (tool : ToolDefinition) : AuthGate → String
  | .systemGate => "System-level access required"
  | .adminGate => "Admin access required"
  | .rolesGate => "Required roles: " ++ String.intercalate ", " tool.permissions.roles
  | .scopesGate => "Required scopes: " ++ String.intercalate ", " tool.permissions.scopes

/-! ## Registry (`mcp_server/registry.py`) -/

/-- `ToolRegistry` state from `mcp_server/registry.py`: `_tools` is the
insertion-ordered dict keyed by qualified name, `_domains` the set of
registered domains. -/
structure ToolRegistry where
  tools : List (String × ToolDefinition) := []
  domains : List String := []

/-- `ToolRegistry.get`: dict lookup by qualified name. -/
def ToolRegistry.get (r : ToolRegistry) (tool_name : String) : Option ToolDefinition :=
  r.tools.lookup tool_name

/-- `ToolRegistry.register` from `mcp_server/registry.py`: raises
`ValueError` (modelled as `Except.error`) when the qualified name is already
present, otherwise inserts the tool and records its domain. -/
def ToolRegistry.register (r : ToolRegistry) (tool : ToolDefinition) :
    Except String ToolRegistry :=
  let qualified_name := tool.qualified_name
  if (r.tools.lookup qualified_name).isSome then
    Except.error ("Tool '" ++ qualified_name ++ "' is already registered")
  else
    Except.ok
      { tools := r.tools ++ [(qualified_name, tool)]
        domains := if tool.domain ∈ r.domains then r.domains else r.domains ++ [tool.domain] }

/-- `ToolRegistry.list_tools`: all tools, optionally filtered by domain,
excluding deprecated tools unless `include_deprecated`. -/
def ToolRegistry.list_tools (r : ToolRegistry) (domain : Option String := none)
    (include_deprecated : Bool := false) : List ToolDefinition :=
  let tools := r.tools.map Prod.snd
  let tools := match domain with
    | some d => tools.filter (fun t => t.domain = d)
    | none => tools
  if include_deprecated then tools else tools.filter (fun t => ¬ t.deprecated)

/-- A schema validator standing for `shared/schema.py`'s `validate_schema`
(the external `jsonschema` library): parameters × schema →
`(is_valid, error messages)`. -/
abbrev SchemaValidator := JsonDict → JsonDict → Bool × List String

/-- `ToolRegistry.validate_input`: unknown tool → invalid with a not-found
message; empty (falsy) schema → valid; otherwise defer to the schema
validator. -/
def ToolRegistry.validate_input (r : ToolRegistry) (validator : SchemaValidator)
    (tool_name : String) (parameters : JsonDict) : Bool × List String :=
  match r.get tool_name with
  | none => (false, ["Tool '" ++ tool_name ++ "' not found"])
  | some tool =>
    if tool.input_schema.isEmpty then (true, [])
    else validator parameters tool.input_schema

/-- The OpenAI function-calling descriptor built by `get_tools_for_llm`
(`{"type": "function", "function": {...}}`). -/
structure LLMToolDescriptor where
  name : String
  description : String
  parameters : JsonDict

/-- The descriptor `get_tools_for_llm` emits for one tool (an empty schema
is replaced by the empty-object schema; both are modelled as the empty
dict's property list, so the `or` collapses to the schema itself). -/
def toolDescriptor (tool : ToolDefinition) : LLMToolDescriptor :=
  { name := tool.qualified_name
    description := tool.description
    parameters := tool.input_schema }

/-- The body of `get_tools_for_llm`'s permission filter from
`mcp_server/registry.py`: public level, or a role of `user_roles` appears in
the tool's required roles, or user level with a truthy (non-empty) role
list. -/
def llmFilterKeeps (user_roles : List String) (tool : ToolDefinition) : Bool :=
  tool.permissions.level = .publicLevel ∨
  user_roles.any (· ∈ tool.permissions.roles) ∨
  (tool.permissions.level = .userLevel ∧ user_roles ≠ [])

/-- `ToolRegistry.get_tools_for_llm` from `mcp_server/registry.py`:
non-deprecated tools, filtered by domains when supplied and truthy, filtered
by the permission rule when `user_roles` is supplied (`is not None`),
formatted as LLM descriptors. -/
def ToolRegistry.get_tools_for_llm (r : ToolRegistry)
    (domains : Option (List String) := none)
    (user_roles : Option (List String) := none) : List LLMToolDescriptor :=
  let tools : List ToolDefinition := r.list_tools none false
  let tools := match domains with
    | some ds => if ds ≠ [] then tools.filter (fun (t : ToolDefinition) => t.domain ∈ ds) else tools
    | none => tools
  let tools := match user_roles with
    | some roles => tools.filter (llmFilterKeeps roles)
    | none => tools
  tools.map toolDescriptor

/-! ## Audit sink (`mcp_server/audit.py`) -/

/-- `AuditLogger` state from `mcp_server/audit.py`: the enabled flag, the
flush threshold, and the in-memory buffer. The durable file is carried
alongside as the list of lines appended so far. -/
structure AuditLogger where
  enabled : Bool := true
  buffer_size : Nat := 100
  buffer : List AuditEntry := []

/-- `AuditLogger.create_entry`: builds the audit entry, with the parameters
redacted; `id` and `timestamp` stand for the generated uuid and
`datetime.utcnow()`. -/
def AuditLogger.create_entry (tool : ToolDefinition) (call : ToolCall)
    (result : ToolResult) (id : String) (timestamp : Nat) : AuditEntry :=
  { id := id
    timestamp := timestamp
    user_id := call.context.user.user_id
    username := call.context.user.username
    tool_name := tool.qualified_name
    domain := tool.domain
    execution_type := tool.execution_type
    parameters := redactSensitive call.parameters
    status := result.status
    error := result.error
    execution_time_ms := result.execution_time_ms
    request_id := call.context.request_id
    correlation_id := call.context.correlation_id }

/-- `AuditLogger._flush` from `mcp_server/audit.py`, with the file-append
I/O abstracted into the `writeOk` outcome: empty buffer → no-op; otherwise
the buffer is copied and cleared, and the copied entries are either all
appended to the file (`writeOk`) or re-added to the (cleared) buffer for
retry. Returns the new logger state and the lines appended to the file. -/
def AuditLogger.flushBuffer (logger : AuditLogger) (writeOk : Bool) :
    AuditLogger × List AuditEntry :=
  if logger.buffer.isEmpty then (logger, [])
  else
    let entries_to_write := logger.buffer
    let cleared := { logger with buffer := [] }
    if writeOk then (cleared, entries_to_write)
    else ({ cleared with buffer := cleared.buffer ++ entries_to_write }, [])

/-! ## Execution pipeline (`mcp_server/router.py`) -/

/-- The duck-typed value a domain adapter may produce (`router.py`
normalizes a plain dict, an already-shaped `ToolResult`, any other value, or
a raised exception). -/
inductive AdapterOutcome where
  | dictValue (d : JsonDict)
  | resultValue (r : ToolResult)
  | otherValue (v : JsonValue)
  | raised (message : String)

/-- An adapter executor: `(action, parameters, context) -> outcome`. -/
abbrev AdapterExecutor := String → JsonDict → ExecutionContext → AdapterOutcome

/-- `ToolRouter` state from `mcp_server/router.py`: the registry, the
registered adapters keyed by domain, whether the audit logger is enabled,
and the schema validator the registry defers to. -/
structure ToolRouter where
  registry : ToolRegistry
  adapters : List (String × AdapterExecutor) := []
  auditEnabled : Bool := true
  validator : SchemaValidator := fun _ _ => (true, [])

/-- `ToolRouter._execute_with_adapter` from `mcp_server/router.py`: extract
the action (last dot segment of the tool name), call the adapter, wrap a
dict or any other plain value as `success`, pass a `ToolResult` through, and
let a raised exception propagate (`Except.error`). -/
def executeWithAdapter (adapter : AdapterExecutor) (tool : ToolDefinition)
    (parameters : JsonDict) (context : ExecutionContext) : Except String ToolResult :=
  let action :=
    if pyContains tool.name '.' then lastSplitPiece tool.name '.'
    else tool.name
  match adapter action parameters context with
  | .dictValue d =>
    Except.ok { tool_name := tool.qualified_name, status := .success, data := some (.obj d) }
  | .resultValue r => Except.ok r
  | .otherValue v =>
    Except.ok { tool_name := tool.qualified_name, status := .success, data := some v }
  | .raised message => Except.error message

/-- The entries `AuditLogger.log` records for one call: exactly one when the
logger is enabled, none otherwise. -/
def auditEntriesFor (enabled : Bool) (tool : ToolDefinition) (call : ToolCall)
    (result : ToolResult) (auditId : String) (auditTs : Nat) : List AuditEntry :=
  if enabled then [AuditLogger.create_entry tool call result auditId auditTs] else []

/-- `ToolRouter.execute` from `mcp_server/router.py`: lookup → validate →
authorize → adapter dispatch → normalize → audit. `elapsed` stands for the
wall-clock measurement `(time.time() - start_time) * 1000` taken after the
adapter step; `auditId`/`auditTs` stand for the uuid and timestamp the audit
logger generates. Returns the result together with the audit entries logged
during the call. -/
def ToolRouter.execute (router : ToolRouter) (call : ToolCall) (elapsed : Nat)
    (auditId : String) (auditTs : Nat) : ToolResult × List AuditEntry :=
  let tool_name := call.tool_name
  match router.registry.get tool_name with
  | none =>
    ({ tool_name := tool_name
       status := .not_found
       error := some ("Tool '" ++ tool_name ++ "' not found")
       error_code := some "TOOL_NOT_FOUND" }, [])
  | some tool =>
    let validation := router.registry.validate_input router.validator tool_name call.parameters
    if ¬ validation.1 then
      let result : ToolResult :=
        { tool_name := tool_name
          status := .validation_error
          error := some ("Validation failed: " ++ String.intercalate "; " validation.2)
          error_code := some "VALIDATION_ERROR" }
      (result, auditEntriesFor router.auditEnabled tool call result auditId auditTs)
    else
      let auth := authorize_request tool call.context.user call.context
      if ¬ auth.1 then
        let result : ToolResult :=
          { tool_name := tool_name
            status := .unauthorized
            error := some (auth.2.getD "Unauthorized")
            error_code := some "UNAUTHORIZED" }
        (result, auditEntriesFor router.auditEnabled tool call result auditId auditTs)
      else
        match router.adapters.lookup tool.domain with
        | none =>
          let result : ToolResult :=
            { tool_name := tool_name
              status := .error
              error := some ("No adapter registered for domain '" ++ tool.domain ++ "'")
              error_code := some "NO_ADAPTER" }
          (result, auditEntriesFor router.auditEnabled tool call result auditId auditTs)
        | some adapter =>
          let result0 :=
            match executeWithAdapter adapter tool call.parameters call.context with
            | .ok r => r
            | .error message =>
              { tool_name := tool_name
                status := .error
                error := some message
                error_code := some "EXECUTION_ERROR" }
          let result := { result0 with execution_time_ms := elapsed }
          (result, auditEntriesFor router.auditEnabled tool call result auditId auditTs)

/-! ## Conversation store (`orchestrator/conversation.py`) -/

/-- The arguments carried by one model tool-call request: either a JSON
string still to be parsed, or an already-decoded dict
(`gateway._execute_tool_call` accepts both). -/
inductive ToolCallArgs where
  | strArgs (s : String)
  | dictArgs (d : JsonDict)

/-- One tool-call request from the model
(`{"id": ..., "function": {"name": ..., "arguments": ...}}`). -/
structure ToolCallRequest where
  id : String
  name : String
  arguments : ToolCallArgs

/-- `ConversationMessage` from `shared/models.py` (the timestamp carries no
claim and is omitted). -/
structure ConversationMessage where
  role : String
  content : String
  tool_calls : Option (List ToolCallRequest) := none
  tool_call_id : Option String := none

/-- Python list slicing `l[start:]` for an arbitrary (possibly negative or
zero) start index, as used by `conversation.py`'s
`other_msgs[-keep_count:]`. -/
def pySliceFrom (start : Int) (l : List α) : List α :=
  if 0 ≤ start then l.drop start.toNat
  else l.drop (l.length - (-start).toNat)

/-- The pruning step of `ConversationManager.add_message` from
`orchestrator/conversation.py`: when the message count exceeds
`max_length`, keep the system messages followed by
`other_msgs[-keep_count:]` where `keep_count = max_length - len(system_msgs)`
(a Python slice, so a non-positive `keep_count` keeps non-system messages
instead of dropping them all). -/
def pruneMessages (max_length : Nat) (messages : List ConversationMessage) :
    List ConversationMessage :=
  if messages.length > max_length then
    let system_msgs := messages.filter (fun m => m.role = "system")
    let other_msgs := messages.filter (fun m => m.role ≠ "system")
    let keep_count : Int := (max_length : Int) - system_msgs.length
    system_msgs ++ pySliceFrom (-keep_count) other_msgs
  else messages

/-- `ConversationManager.add_message` restricted to its effect on the
message list of a found, unexpired conversation: append, then prune. -/
def addMessagePrune (max_length : Nat) (messages : List ConversationMessage)
    (m : ConversationMessage) : List ConversationMessage :=
  pruneMessages max_length (messages ++ [m])

/-! ## Agent loop (`orchestrator/gateway.py`) -/

/-- `LLMResponse` from `shared/models.py` restricted to the fields the loop
reads. -/
structure LLMResponse where
  content : Option String := none
  tool_calls : Option (List ToolCallRequest) := none

/-- The collaborators and configuration of `AIGateway._process_with_tools`:
the model completion call, the execution client (`mcp_client.execute`), the
JSON argument parser (`json.loads`), the JSON serializer (`json.dumps`, used
to format structured tool output), the iteration budget, and the
conversation size cap used by the appends. -/
structure LoopEnv where
  llm : List ConversationMessage → LLMResponse
  execClient : String → JsonDict → String → ToolResult
  parseJson : String → Option JsonDict
  dumpJson : JsonValue → String
  max_tool_iterations : Nat := 10
  max_length : Nat := 50

/-- `AIGateway._format_tool_result` from `orchestrator/gateway.py`. -/
def formatToolResult (dumpJson : JsonValue → String) (result : ToolResult) : String :=
  if result.status = .success then
    match result.data with
    | none => "Tool executed successfully."
    | some (.str s) => s
    | some v => dumpJson v
  else
    "Tool error (" ++ result.status.value ++ "): " ++ (result.error.getD "Unknown error")

/-- `AIGateway._execute_tool_call` from `orchestrator/gateway.py`: string
arguments that fail to parse yield a synthesized `validation_error` without
reaching the execution client; otherwise the client is invoked. The boolean
records whether the client's `execute` was called. -/
def executeToolCall (env : LoopEnv) (request_id : String) (tc : ToolCallRequest) :
    ToolResult × Bool :=
  match tc.arguments with
  | .strArgs s =>
    match env.parseJson s with
    | none =>
      ({ tool_name := tc.name
         status := .validation_error
         error := some "Invalid tool call arguments" }, false)
    | some parameters => (env.execClient tc.name parameters request_id, true)
  | .dictArgs d => (env.execClient tc.name d request_id, true)

/-- The per-turn tool execution loop of `_process_with_tools`: execute each
requested call in order and append its formatted result as a tool-role
message. Returns the updated messages and the number of execution-client
calls made. -/
def runToolCalls (env : LoopEnv) (request_id : String) :
    List ToolCallRequest → List ConversationMessage → List ConversationMessage × Nat
  | [], msgs => (msgs, 0)
  | tc :: rest, msgs =>
    let step := executeToolCall env request_id tc
    let msgs1 := addMessagePrune env.max_length msgs
      { role := "tool"
        content := formatToolResult env.dumpJson step.1
        tool_call_id := some tc.id }
    let next := runToolCalls env request_id rest msgs1
    (next.1, (if step.2 then 1 else 0) + next.2)

/-- The canned exhaustion message returned when the iteration budget runs
out (`gateway.py`). -/
def exhaustedMessage : String :=
  "I apologize, but I wasn't able to complete the task within the allowed number of steps."

/-- The final text of a tool-call-free model response:
`llm_response.content or "I apologize, ..."` (Python `or`, so an empty
string also falls back). -/
def finalText (resp : LLMResponse) : String :=
  match resp.content with
  | some c => if c = "" then "I apologize, but I couldn't generate a response." else c
  | none => "I apologize, but I couldn't generate a response."

/-- The outcome of `_process_with_tools`: the returned text, the number of
model completion calls, the number of execution-client calls, and the final
message list. -/
structure LoopResult where
  answer : String
  llmCalls : Nat
  execCalls : Nat
  messages : List ConversationMessage

/-- The `while iterations < max_tool_iterations` loop of
`AIGateway._process_with_tools`, by recursion on the remaining budget: a
response with a truthy (present, non-empty) tool-call list appends the
assistant message, executes the calls, and continues; any other response
ends the loop with its text; a spent budget ends it with the canned
exhaustion message. -/
def loopAux (env : LoopEnv) (request_id : String) :
    Nat → List ConversationMessage → LoopResult
  | 0, msgs =>
    { answer := exhaustedMessage, llmCalls := 0, execCalls := 0, messages := msgs }
  | n + 1, msgs =>
    let resp := env.llm msgs
    match resp.tool_calls with
    | some calls =>
      if calls.isEmpty then
        { answer := finalText resp, llmCalls := 1, execCalls := 0, messages := msgs }
      else
        let msgs1 := addMessagePrune env.max_length msgs
          { role := "assistant"
            content := resp.content.getD ""
            tool_calls := some calls }
        let ran := runToolCalls env request_id calls msgs1
        let sub := loopAux env request_id n ran.1
        { answer := sub.answer
          llmCalls := sub.llmCalls + 1
          execCalls := sub.execCalls + ran.2
          messages := sub.messages }
    | none =>
      { answer := finalText resp, llmCalls := 1, execCalls := 0, messages := msgs }

/-- `AIGateway._process_with_tools`: run the loop with the configured
iteration budget. -/
def processWithTools (env : LoopEnv) (request_id : String)
    (msgs : List ConversationMessage) : LoopResult :=
  loopAux env request_id env.max_tool_iterations msgs

/-! ## Theorems -/

/-- The per-pair transformation applied by `redactSensitive`. -/
def redactPair (kv : String × JsonValue) : String × JsonValue :=
  if pyLower kv.1 ∈ SENSITIVE_PARAMS then (kv.1, JsonValue.str "[REDACTED]")
  else
    match kv.2 with
    | JsonValue.obj fields => (kv.1, JsonValue.obj (redactSensitive fields))
    | _ => kv

theorem redactSensitive_eq_map (params : JsonDict) :
    redactSensitive params = params.map redactPair := by
  induction params with
  | nil => simp [redactSensitive]
  | cons kv rest ih =>
    obtain ⟨k, v⟩ := kv
    cases v <;> simp [redactSensitive, redactPair, ih] <;> split <;> simp

theorem redactPair_fst (kv : String × JsonValue) : (redactPair kv).1 = kv.1 := by
  obtain ⟨k, v⟩ := kv
  cases v <;> simp [redactPair] <;> split <;> rfl

/-- C6: for every parameter map, audit redaction keeps the keys (in order),
replaces the value of every denylisted key (case-insensitively) with the
redaction marker, recurses into map values of non-denylisted keys, passes
every other value through unchanged, and in particular maps
`{username: "u", password: "p", api_key: "k"}` to
`{username: "u", password: "[REDACTED]", api_key: "[REDACTED]"}`. -/
theorem redaction_denylist_and_recursion (params : JsonDict) :
    ((redactSensitive params).map Prod.fst = params.map Prod.fst) ∧
    (∀ p ∈ redactSensitive params, pyLower p.1 ∈ SENSITIVE_PARAMS →
      p.2 = JsonValue.str "[REDACTED]") ∧
    (∀ k fields, (k, JsonValue.obj fields) ∈ params → pyLower k ∉ SENSITIVE_PARAMS →
      (k, JsonValue.obj (redactSensitive fields)) ∈ redactSensitive params) ∧
    (∀ k v, (k, v) ∈ params → pyLower k ∉ SENSITIVE_PARAMS →
      (∀ fields, v ≠ JsonValue.obj fields) → (k, v) ∈ redactSensitive params) ∧
    redactSensitive
        [("username", JsonValue.str "u"), ("password", JsonValue.str "p"),
         ("api_key", JsonValue.str "k")] =
      [("username", JsonValue.str "u"), ("password", JsonValue.str "[REDACTED]"),
       ("api_key", JsonValue.str "[REDACTED]")] := by
  refine ⟨?_, ?_, ?_, ?_, ?_⟩
  · rw [redactSensitive_eq_map, List.map_map]
    exact List.map_congr_left (fun kv _ => redactPair_fst kv)
  · intro p hp hsens
    rw [redactSensitive_eq_map] at hp
    obtain ⟨kv, hkv, hEq⟩ := List.mem_map.mp hp
    obtain ⟨k, v⟩ := kv
    subst hEq
    rw [redactPair_fst] at hsens
    cases v <;> simp [redactPair, hsens]
  · intro k fields hmem hsens
    rw [redactSensitive_eq_map]
    have : redactPair (k, JsonValue.obj fields) = (k, JsonValue.obj (redactSensitive fields)) := by
      simp [redactPair, hsens]
    exact this ▸ List.mem_map_of_mem redactPair hmem
  · intro k v hmem hsens hnotobj
    rw [redactSensitive_eq_map]
    have : redactPair (k, v) = (k, v) := by
      cases v <;> simp [redactPair, hsens]
      exact absurd rfl (hnotobj _)
    exact this ▸ List.mem_map_of_mem redactPair hmem
  · rw [redactSensitive_eq_map]
    simp only [List.map]
    rw [show redactPair ("username", JsonValue.str "u") = ("username", JsonValue.str "u") by
          unfold redactPair; rw [if_neg (by decide)],
        show redactPair ("password", JsonValue.str "p") =
            ("password", JsonValue.str "[REDACTED]") by
          unfold redactPair; rw [if_pos (by decide)],
        show redactPair ("api_key", JsonValue.str "k") =
            ("api_key", JsonValue.str "[REDACTED]") by
          unfold redactPair; rw [if_pos (by decide)]]

/-- Witness for `redaction_denylist_and_recursion` at a concrete nested
parameter map. -/
theorem redaction_denylist_and_recursion_witness :
    ("nested", JsonValue.obj (redactSensitive [("token", JsonValue.str "t")])) ∈
      redactSensitive
        [("password", JsonValue.str "p"),
         ("nested", JsonValue.obj [("token", JsonValue.str "t")])] :=
  (redaction_denylist_and_recursion _).2.2.1 "nested" [("token", JsonValue.str "t")]
    (List.mem_cons_of_mem _ (List.mem_cons_self _ _)) (by decide)

/-- C10: audit redaction does not descend into list values — a list bound to
a non-denylisted key passes through unchanged even when it contains maps
with denylisted keys; in particular a password inside a list of maps is not
redacted. -/
theorem redaction_skips_lists (params : JsonDict) :
    (∀ k items, (k, JsonValue.arr items) ∈ params → pyLower k ∉ SENSITIVE_PARAMS →
      (k, JsonValue.arr items) ∈ redactSensitive params) ∧
    redactSensitive
        [("accounts", JsonValue.arr [JsonValue.obj [("password", JsonValue.str "p")]])] =
      [("accounts", JsonValue.arr [JsonValue.obj [("password", JsonValue.str "p")]])] := by
  constructor
  · intro k items hmem hsens
    rw [redactSensitive_eq_map]
    have : redactPair (k, JsonValue.arr items) = (k, JsonValue.arr items) := by
      simp [redactPair, hsens]
    exact this ▸ List.mem_map_of_mem redactPair hmem
  · rw [redactSensitive_eq_map]
    simp only [List.map]
    rw [show redactPair
          ("accounts", JsonValue.arr [JsonValue.obj [("password", JsonValue.str "p")]]) =
          ("accounts", JsonValue.arr [JsonValue.obj [("password", JsonValue.str "p")]]) by
        unfold redactPair; rw [if_neg (by decide)]]

/-- Witness for `redaction_skips_lists`: the password inside the list of
maps survives redaction verbatim. -/
theorem redaction_skips_lists_witness :
    ("accounts", JsonValue.arr [JsonValue.obj [("password", JsonValue.str "p")]]) ∈
      redactSensitive
        [("user", JsonValue.str "u"),
         ("accounts", JsonValue.arr [JsonValue.obj [("password", JsonValue.str "p")]])] :=
  (redaction_skips_lists _).1 "accounts" [JsonValue.obj [("password", JsonValue.str "p")]]
    (List.mem_cons_of_mem _ (List.mem_cons_self _ _)) (by decide)

/-- C7: a failed flush loses no buffered entry — every entry pending at the
start of the flush is back in the buffer (at the front: the buffer equals
exactly the pending entries, nothing having been appended under the lock)
and nothing reaches the file; a flush of an empty buffer is a no-op; and the
entries restored by a failed flush are all written by the next successful
flush. -/
theorem flush_failure_preserves_buffer (logger : AuditLogger) (ok : Bool) :
    ((logger.flushBuffer false).1.buffer = logger.buffer) ∧
    ((logger.flushBuffer false).2 = []) ∧
    (logger.buffer = [] → logger.flushBuffer ok = (logger, [])) ∧
    (((logger.flushBuffer false).1.flushBuffer true).2 = logger.buffer) := by
  refine ⟨?_, ?_, ?_, ?_⟩
  · unfold AuditLogger.flushBuffer
    split <;> simp
  · unfold AuditLogger.flushBuffer
    split <;> simp
  · intro h
    unfold AuditLogger.flushBuffer
    simp [h]
  · unfold AuditLogger.flushBuffer
    rcases h : logger.buffer with _ | ⟨e, rest⟩ <;> simp [h]

/-- Witness for `flush_failure_preserves_buffer`: a logger with one pending
entry and the empty-buffer no-op, both at concrete states. -/
theorem flush_failure_preserves_buffer_witness :
    AuditLogger.flushBuffer { buffer := [] } true = ({ buffer := [] }, []) :=
  (flush_failure_preserves_buffer { buffer := [] } true).2.2.1 rfl

/-- `List.lookup` finds a freshly appended binding when the key was absent. -/
theorem lookup_append_self (l : List (String × ToolDefinition)) (k : String)
    (t : ToolDefinition) (h : l.lookup k = none) :
    (l ++ [(k, t)]).lookup k = some t := by
  induction l with
  | nil => simp [List.lookup_cons]
  | cons p rest ih =>
    obtain ⟨a, b⟩ := p
    rw [List.lookup_cons] at h
    rw [List.cons_append, List.lookup_cons]
    cases hk : (k == a)
    · rw [hk] at h
      exact ih h
    · rw [hk] at h
      exact Option.noConfusion h

/-- Appending a binding for a different key leaves `List.lookup` unchanged. -/
theorem lookup_append_other (l : List (String × ToolDefinition)) (k q : String)
    (t : ToolDefinition) (h : k ≠ q) :
    (l ++ [(q, t)]).lookup k = l.lookup k := by
  induction l with
  | nil =>
    rw [List.nil_append, List.lookup_cons, beq_eq_false_iff_ne.mpr h]
  | cons p rest ih =>
    obtain ⟨a, b⟩ := p
    rw [List.cons_append, List.lookup_cons, List.lookup_cons]
    cases hk : (k == a)
    · exact ih
    · rfl

/-- C8: `register` fails with the duplicate-tool error exactly when the
qualified name is already present (returning no new state, so the first
registration stays intact), and a successful `register` makes `get` on the
qualified name round-trip exactly the definition passed in, leaving every
other name's lookup unchanged. -/
theorem register_duplicate_and_roundtrip (r : ToolRegistry) (tool : ToolDefinition) :
    ((r.get tool.qualified_name).isSome →
      r.register tool =
        Except.error ("Tool '" ++ tool.qualified_name ++ "' is already registered")) ∧
    (r.get tool.qualified_name = none →
      ∃ r', r.register tool = Except.ok r' ∧
        r'.get tool.qualified_name = some tool ∧
        ∀ n, n ≠ tool.qualified_name → r'.get n = r.get n) := by
  constructor
  · intro h
    unfold ToolRegistry.register
    rw [if_pos]
    exact h
  · intro h
    have h' : r.tools.lookup tool.qualified_name = none := h
    refine ⟨{ tools := r.tools ++ [(tool.qualified_name, tool)]
              domains := if tool.domain ∈ r.domains then r.domains
                         else r.domains ++ [tool.domain] }, ?_, ?_, ?_⟩
    · simp [ToolRegistry.register, h']
    · exact lookup_append_self r.tools tool.qualified_name tool h'
    · intro n hn
      exact lookup_append_other r.tools n tool.qualified_name tool hn

/-- The `hr.get_employee` tool used by concrete witnesses. -/
def hrTool : ToolDefinition :=
  { name := "get_employee", domain := "hr" }

/-- A registry already holding `hr.get_employee`. -/
def hrRegistry : ToolRegistry :=
  { tools := [("hr.get_employee", hrTool)], domains := ["hr"] }

theorem hrTool_qualified : hrTool.qualified_name = "hr.get_employee" := by
  unfold hrTool ToolDefinition.qualified_name
  rw [if_neg (by decide)]
  decide

/-- Witness for `register_duplicate_and_roundtrip`: registering
`hr.get_employee` into a registry that already holds it fails with the
duplicate error. -/
theorem register_duplicate_and_roundtrip_witness :
    hrRegistry.register hrTool =
      Except.error ("Tool '" ++ hrTool.qualified_name ++ "' is already registered") :=
  (register_duplicate_and_roundtrip hrRegistry hrTool).1
    (by rw [ToolRegistry.get, hrTool_qualified]; rfl)

/-- C3: `authorize_request` evaluates its gates in the fixed order public,
system, admin, required-roles, required-scopes — it returns allow or the
deny of the first failing gate with that gate's distinguishing reason
(exactly `authorizeSpec`, written from the spec's words) — and the gates are
cumulative: for an admin-level tool with a non-empty required-role set an
identity is authorized iff it has role "admin", shares a required role, and
passes the scope gate when scopes are required. -/
theorem authorize_gate_order_and_cumulative (tool : ToolDefinition) (user : UserContext)
    (context : ExecutionContext) :
    (authorize_request tool user context =
      match authorizeSpec tool user with
      | none => (true, none)
      | some g => (false, some (gateReason tool g))) ∧
    (tool.permissions.level = .adminLevel → tool.permissions.roles ≠ [] →
      ((authorize_request tool user context).1 = true ↔
        ("admin" ∈ user.roles ∧ tool.permissions.roles.any (· ∈ user.roles) = true ∧
          (tool.permissions.scopes = [] ∨
            tool.permissions.scopes.any (· ∈ user.permissions) = true)))) := by
  constructor
  · unfold authorize_request authorizeSpec
    dsimp only
    split_ifs <;> simp [gateReason]
  · intro hlvl hroles
    unfold authorize_request
    dsimp only
    simp only [hlvl]
    split_ifs with h1 h2 h3 h4 h5 <;> simp_all
    tauto

/-- An admin-level tool additionally requiring the `finance` role. -/
def adminFinanceTool : ToolDefinition :=
  { name := "approve_budget", domain := "erp"
    permissions := { level := .adminLevel, roles := ["finance"] } }

/-- An identity holding both the `admin` and `finance` roles. -/
def adminFinanceUser : UserContext :=
  { user_id := "u1", username := "alice", roles := ["admin", "finance"] }

/-- A concrete execution context for witnesses. -/
def witnessContext : ExecutionContext :=
  { request_id := "req1", user := adminFinanceUser }

/-- Witness for `authorize_gate_order_and_cumulative` at an admin-level tool
with a required role. -/
theorem authorize_gate_order_and_cumulative_witness :
    (authorize_request adminFinanceTool adminFinanceUser witnessContext).1 = true ↔
      ("admin" ∈ adminFinanceUser.roles ∧
        adminFinanceTool.permissions.roles.any (· ∈ adminFinanceUser.roles) = true ∧
        (adminFinanceTool.permissions.scopes = [] ∨
          adminFinanceTool.permissions.scopes.any (· ∈ adminFinanceUser.permissions) = true)) :=
  (authorize_gate_order_and_cumulative adminFinanceTool adminFinanceUser witnessContext).2
    rfl (by decide)

/-- The listing a supplied `user_roles` produces, spelled out. -/
theorem get_tools_for_llm_none_some (r : ToolRegistry) (roles : List String) :
    r.get_tools_for_llm none (some roles) =
      (((r.tools.map Prod.snd).filter (fun t => ¬ t.deprecated)).filter
        (llmFilterKeeps roles)).map toolDescriptor := by
  unfold ToolRegistry.get_tools_for_llm ToolRegistry.list_tools
  dsimp only
  rw [if_neg (by decide)]

/-- A registry is well-formed when every binding's key is its tool's
qualified name and the keys are distinct — exactly what `register`
maintains. -/
def RegistryWF (r : ToolRegistry) : Prop :=
  (∀ p ∈ r.tools, p.1 = p.2.qualified_name) ∧ (r.tools.map Prod.fst).Nodup

/-- C9 (amended): with `callerRoles` supplied, the model-facing listing of a
well-formed registry includes a **non-deprecated** registered tool iff its
level is public, or its required-role set intersects the caller roles, or
its level is user and the caller-role list is non-empty. (The original
claim, quantified over every registered tool, fails on deprecated tools:
see `llm_listing_deprecated_counterexample`.) -/
theorem llm_listing_included_iff (r : ToolRegistry) (roles : List String)
    (tool : ToolDefinition) (hwf : RegistryWF r)
    (hmem : tool ∈ r.tools.map Prod.snd) (hdep : tool.deprecated = false) :
    toolDescriptor tool ∈ r.get_tools_for_llm none (some roles) ↔
      (tool.permissions.level = .publicLevel ∨
        roles.any (· ∈ tool.permissions.roles) = true ∨
        (tool.permissions.level = .userLevel ∧ roles ≠ [])) := by
  rw [get_tools_for_llm_none_some]
  constructor
  · intro h
    obtain ⟨t', ht', hdesc⟩ := List.mem_map.mp h
    obtain ⟨ht'mem, ht'keep⟩ := List.mem_filter.mp ht'
    have ht'mem2 := (List.mem_filter.mp ht'mem).1
    have hname : t'.qualified_name = tool.qualified_name :=
      congrArg LLMToolDescriptor.name hdesc
    obtain ⟨p', hp', hp'eq⟩ := List.mem_map.mp ht'mem2
    obtain ⟨p, hp, hpeq⟩ := List.mem_map.mp hmem
    have hkeys : p'.1 = p.1 := by
      rw [hwf.1 p' hp', hwf.1 p hp, hp'eq, hpeq, hname]
    have hpp : p' = p := List.inj_on_of_nodup_map hwf.2 hp' hp hkeys
    have htt : t' = tool := by rw [← hp'eq, ← hpeq, hpp]
    rw [htt] at ht'keep
    simpa [llmFilterKeeps] using ht'keep
  · intro h
    refine List.mem_map_of_mem toolDescriptor ?_
    refine List.mem_filter.mpr ⟨List.mem_filter.mpr ⟨hmem, by simp [hdep]⟩, ?_⟩
    simpa [llmFilterKeeps] using h

/-- Witness for `llm_listing_included_iff`: a public tool in a one-tool
registry is listed for a caller with no matching role. -/
theorem llm_listing_included_iff_witness :
    toolDescriptor hrTool ∈ hrRegistry.get_tools_for_llm none (some ["dev"]) ↔
      (hrTool.permissions.level = .publicLevel ∨
        (["dev"] : List String).any (· ∈ hrTool.permissions.roles) = true ∨
        (hrTool.permissions.level = .userLevel ∧ (["dev"] : List String) ≠ [])) :=
  llm_listing_included_iff hrRegistry ["dev"] hrTool
    ⟨by
      intro p hp
      simp only [hrRegistry, List.mem_singleton] at hp
      subst hp
      exact hrTool_qualified.symm, by decide⟩
    (List.mem_map.mpr ⟨("hr.get_employee", hrTool), by simp [hrRegistry], rfl⟩) rfl

/-- A deprecated public tool. -/
def depTool : ToolDefinition :=
  { name := "ping", domain := "net"
    permissions := { level := .publicLevel }
    deprecated := true }

/-- A registry holding only the deprecated public tool. -/
def depRegistry : ToolRegistry :=
  { tools := [("net.ping", depTool)], domains := ["net"] }

/-- C9 counterexample: `depTool` is registered and its permission level is
public, so the claim's iff demands it be listed when `callerRoles` is
supplied — but `get_tools_for_llm` filters deprecated tools out first and
lists nothing. -/
theorem llm_listing_deprecated_counterexample :
    depTool.permissions.level = .publicLevel ∧
    depTool ∈ depRegistry.tools.map Prod.snd ∧
    depRegistry.get_tools_for_llm none (some ["dev"]) = [] := by
  refine ⟨rfl, ?_, ?_⟩
  · simp [depRegistry]
  · rw [get_tools_for_llm_none_some]
    rfl

/-- A user-role message with the given content. -/
def mUser (c : String) : ConversationMessage :=
  { role := "user", content := c }

/-- A system-role message. -/
def mSystem : ConversationMessage :=
  { role := "system", content := "s" }

/-- C5 (amended): when an append pushes the message count past the cap and
the number of system messages is below the cap, the pruned list is exactly
all system messages in their original order, moved to the front, followed by
the `(cap − systemCount)` most recent non-system messages in their original
order. (The original claim's "all kept messages in their original relative
order" fails when a system message sits after a kept non-system message —
see `conversation_prune_order_counterexample` — and with `systemCount ≥ cap`
the Python slice `[-0:]`/`[positive:]` stops pruning correctly.) -/
theorem conversation_prune_keeps_system_and_recent (cap : Nat)
    (msgs : List ConversationMessage) (m : ConversationMessage)
    (hover : (msgs ++ [m]).length > cap)
    (hsys : ((msgs ++ [m]).filter (fun x => x.role = "system")).length < cap) :
    addMessagePrune cap msgs m =
      (msgs ++ [m]).filter (fun x => x.role = "system") ++
        ((msgs ++ [m]).filter (fun x => x.role ≠ "system")).drop
          (((msgs ++ [m]).filter (fun x => x.role ≠ "system")).length -
            (cap - ((msgs ++ [m]).filter (fun x => x.role = "system")).length)) := by
  unfold addMessagePrune pruneMessages pySliceFrom
  dsimp only
  rw [if_pos hover]
  rw [if_neg (by omega)]
  congr 2
  omega

/-- Witness for `conversation_prune_keeps_system_and_recent`: with a leading
system message and cap 3, appending a fourth message keeps the system
message plus the two most recent user messages. -/
theorem conversation_prune_keeps_system_and_recent_witness :
    addMessagePrune 3 [mSystem, mUser "u1", mUser "u2"] (mUser "u3") =
      [mSystem, mUser "u2", mUser "u3"] := by
  rw [conversation_prune_keeps_system_and_recent 3 [mSystem, mUser "u1", mUser "u2"]
    (mUser "u3") (by decide) (by decide)]
  rfl

/-- C5 counterexample: with cap 3 and messages `[u1, u2, s, u4]` after the
append, the code keeps `{s, u2, u4}` but reorders them as `[s, u2, u4]`,
moving the system message in front of `u2` — the kept contents are not a
subsequence of the original contents, so the kept messages are not in their
original relative order as the claim requires. -/
theorem conversation_prune_order_counterexample :
    ((addMessagePrune 3 [mUser "u1", mUser "u2", mSystem] (mUser "u4")).map
      (fun x => x.content) = ["s", "u2", "u4"]) ∧
    ¬ List.Sublist (["s", "u2", "u4"] : List String)
        ([mUser "u1", mUser "u2", mSystem, mUser "u4"].map (fun x => x.content)) := by
  constructor
  · rfl
  · decide

/-- C1 (amended): on a tool name absent from the registry the pipeline
returns a result with status `not_found` — but it returns **before** the
audit stage, so no audit entry at all is produced (the original claim's
"exactly one audit entry" fails: see
`unknown_tool_not_audited_counterexample`). -/
theorem unknown_tool_not_audited (router : ToolRouter) (call : ToolCall)
    (elapsed : Nat) (auditId : String) (auditTs : Nat)
    (h : router.registry.get call.tool_name = none) :
    (router.execute call elapsed auditId auditTs).1.status = .not_found ∧
    (router.execute call elapsed auditId auditTs).2 = [] := by
  unfold ToolRouter.execute
  dsimp only
  rw [h]
  exact ⟨rfl, rfl⟩

/-- A router over the empty registry with auditing enabled. -/
def emptyRouter : ToolRouter :=
  { registry := {} }

/-- A call to a tool name no registry holds. -/
def unknownCall : ToolCall :=
  { tool_name := "unknown.tool", context := witnessContext }

/-- Witness for `unknown_tool_not_audited` at the empty registry. -/
theorem unknown_tool_not_audited_witness :
    (emptyRouter.execute unknownCall 5 "audit-1" 0).1.status = .not_found ∧
    (emptyRouter.execute unknownCall 5 "audit-1" 0).2 = [] :=
  unknown_tool_not_audited emptyRouter unknownCall 5 "audit-1" 0 rfl

/-- C1 counterexample: the unknown-tool execution returns `not_found` yet
logs zero audit entries, not the one entry the claim requires — even with
the audit logger enabled. -/
theorem unknown_tool_not_audited_counterexample :
    emptyRouter.auditEnabled = true ∧
    (emptyRouter.execute unknownCall 5 "audit-1" 0).1.status = .not_found ∧
    (emptyRouter.execute unknownCall 5 "audit-1" 0).2.length ≠ 1 := by
  refine ⟨rfl, rfl, ?_⟩
  decide

/-- C2 (amended): with the audit logger enabled, every terminal outcome for
a **registered** tool (validation_error, unauthorized, no-adapter error,
adapter success or adapter exception) is audited exactly once, while an
unknown tool is not audited at all; and only the adapter-dispatch outcomes
carry the measured elapsed time — the validation_error, unauthorized and
no-adapter results keep the field's default `0`, as does the unaudited
not_found result. (The original claim fails both on the unknown-tool audit
and on the elapsed time of the early outcomes: see
`pipeline_timing_counterexample`.) -/
theorem pipeline_audit_and_timing (router : ToolRouter) (call : ToolCall)
    (elapsed : Nat) (auditId : String) (auditTs : Nat)
    (hen : router.auditEnabled = true) :
    (router.registry.get call.tool_name = none →
      (router.execute call elapsed auditId auditTs).2.length = 0 ∧
      (router.execute call elapsed auditId auditTs).1.execution_time_ms = 0) ∧
    (∀ tool, router.registry.get call.tool_name = some tool →
      (router.execute call elapsed auditId auditTs).2.length = 1) ∧
    (∀ tool, router.registry.get call.tool_name = some tool →
      (router.registry.validate_input router.validator call.tool_name call.parameters).1
        = false →
      (router.execute call elapsed auditId auditTs).1.execution_time_ms = 0) ∧
    (∀ tool, router.registry.get call.tool_name = some tool →
      (router.registry.validate_input router.validator call.tool_name call.parameters).1
        = true →
      (authorize_request tool call.context.user call.context).1 = false →
      (router.execute call elapsed auditId auditTs).1.execution_time_ms = 0) ∧
    (∀ tool, router.registry.get call.tool_name = some tool →
      (router.registry.validate_input router.validator call.tool_name call.parameters).1
        = true →
      (authorize_request tool call.context.user call.context).1 = true →
      router.adapters.lookup tool.domain = none →
      (router.execute call elapsed auditId auditTs).1.execution_time_ms = 0) ∧
    (∀ tool adapter, router.registry.get call.tool_name = some tool →
      (router.registry.validate_input router.validator call.tool_name call.parameters).1
        = true →
      (authorize_request tool call.context.user call.context).1 = true →
      router.adapters.lookup tool.domain = some adapter →
      (router.execute call elapsed auditId auditTs).1.execution_time_ms = elapsed) := by
  refine ⟨?_, ?_, ?_, ?_, ?_, ?_⟩
  · intro h
    have hres := unknown_tool_not_audited router call elapsed auditId auditTs h
    refine ⟨by rw [hres.2]; rfl, ?_⟩
    unfold ToolRouter.execute
    dsimp only
    rw [h]
  · intro tool htool
    unfold ToolRouter.execute
    dsimp only
    rw [htool]
    dsimp only
    by_cases hv : (router.registry.validate_input router.validator call.tool_name
        call.parameters).1
    · rw [if_neg (by simp [hv])]
      by_cases ha : (authorize_request tool call.context.user call.context).1
      · rw [if_neg (by simp [ha])]
        cases hA : router.adapters.lookup tool.domain with
        | none => simp [auditEntriesFor, hen]
        | some adapter => simp [auditEntriesFor, hen]
      · rw [if_pos (by simp [ha])]
        simp [auditEntriesFor, hen]
    · rw [if_pos (by simp [hv])]
      simp [auditEntriesFor, hen]
  · intro tool htool hv
    unfold ToolRouter.execute
    dsimp only
    rw [htool]
    dsimp only
    rw [if_pos (by simp [hv])]
  · intro tool htool hv ha
    unfold ToolRouter.execute
    dsimp only
    rw [htool]
    dsimp only
    rw [if_neg (by simp [hv]), if_pos (by simp [ha])]
  · intro tool htool hv ha hA
    unfold ToolRouter.execute
    dsimp only
    rw [htool]
    dsimp only
    rw [if_neg (by simp [hv]), if_neg (by simp [ha]), hA]
  · intro tool adapter htool hv ha hA
    unfold ToolRouter.execute
    dsimp only
    rw [htool]
    dsimp only
    rw [if_neg (by simp [hv]), if_neg (by simp [ha]), hA]

/-- A public tool with an empty (always-valid) input schema. -/
def okTool : ToolDefinition :=
  { name := "get_employee", domain := "hr"
    permissions := { level := .publicLevel } }

/-- An adapter returning a plain dict payload. -/
def okAdapter : AdapterExecutor :=
  fun _ _ _ => .dictValue [("name", JsonValue.str "Alice")]

/-- A router with `okTool` registered and an adapter for its domain. -/
def okRouter : ToolRouter :=
  { registry := { tools := [("hr.get_employee", okTool)], domains := ["hr"] }
    adapters := [("hr", okAdapter)] }

/-- A valid call to `hr.get_employee`. -/
def okCall : ToolCall :=
  { tool_name := "hr.get_employee", context := witnessContext }

/-- Witness for `pipeline_audit_and_timing`: the adapter path of a concrete
successful execution carries the measured elapsed time. -/
theorem pipeline_audit_and_timing_witness :
    (okRouter.execute okCall 7 "audit-2" 0).1.execution_time_ms = 7 :=
  (pipeline_audit_and_timing okRouter okCall 7 "audit-2" 0 rfl).2.2.2.2.2
    okTool okAdapter rfl rfl rfl rfl

/-- A tool whose (non-empty) input schema requires a field. -/
def schemaTool : ToolDefinition :=
  { name := "t", domain := "d"
    input_schema := [("required", JsonValue.arr [JsonValue.str "required_field"])]
    permissions := { level := .publicLevel } }

/-- A router whose schema validator (standing for `jsonschema` on
`schemaTool`'s schema) rejects the empty parameter map. -/
def valRouter : ToolRouter :=
  { registry := { tools := [("d.t", schemaTool)], domains := ["d"] }
    validator := fun _ _ => (false, ["required_field: required"]) }

/-- A call to `d.t` with no parameters. -/
def valCall : ToolCall :=
  { tool_name := "d.t", context := witnessContext }

/-- C2 counterexample: a validation_error outcome is audited once, but the
returned result's `execution_time_ms` stays at the field default `0`
instead of carrying the measured elapsed time (here 5) — the code assigns
the elapsed time only on the adapter path. -/
theorem pipeline_timing_counterexample :
    valRouter.auditEnabled = true ∧
    (valRouter.execute valCall 5 "audit-3" 0).1.status = .validation_error ∧
    (valRouter.execute valCall 5 "audit-3" 0).2.length = 1 ∧
    (valRouter.execute valCall 5 "audit-3" 0).1.execution_time_ms ≠ 5 := by
  refine ⟨rfl, rfl, rfl, by decide⟩

/-- Each turn's tool-execution loop calls the execution client at most once
per requested tool call (malformed arguments skip the client). -/
theorem runToolCalls_count_le (env : LoopEnv) (rid : String)
    (calls : List ToolCallRequest) (msgs : List ConversationMessage) :
    (runToolCalls env rid calls msgs).2 ≤ calls.length := by
  induction calls generalizing msgs with
  | nil => simp [runToolCalls]
  | cons tc rest ih =>
    simp only [runToolCalls, List.length_cons]
    have hb := ih (addMessagePrune env.max_length msgs
      { role := "tool"
        content := formatToolResult env.dumpJson (executeToolCall env rid tc).1
        tool_call_id := some tc.id })
    split <;> omega

/-- One unfolding of the loop on a turn whose response carries a non-empty
tool-call list. -/
theorem loopAux_succ_toolcalls (env : LoopEnv) (rid : String) (n : Nat)
    (msgs : List ConversationMessage) (calls : List ToolCallRequest)
    (hc : (env.llm msgs).tool_calls = some calls) (hne : calls ≠ []) :
    loopAux env rid (n + 1) msgs =
      { answer := (loopAux env rid n
          (runToolCalls env rid calls (addMessagePrune env.max_length msgs
            { role := "assistant"
              content := (env.llm msgs).content.getD ""
              tool_calls := some calls })).1).answer
        llmCalls := (loopAux env rid n
          (runToolCalls env rid calls (addMessagePrune env.max_length msgs
            { role := "assistant"
              content := (env.llm msgs).content.getD ""
              tool_calls := some calls })).1).llmCalls + 1
        execCalls := (loopAux env rid n
          (runToolCalls env rid calls (addMessagePrune env.max_length msgs
            { role := "assistant"
              content := (env.llm msgs).content.getD ""
              tool_calls := some calls })).1).execCalls +
          (runToolCalls env rid calls (addMessagePrune env.max_length msgs
            { role := "assistant"
              content := (env.llm msgs).content.getD ""
              tool_calls := some calls })).2
        messages := (loopAux env rid n
          (runToolCalls env rid calls (addMessagePrune env.max_length msgs
            { role := "assistant"
              content := (env.llm msgs).content.getD ""
              tool_calls := some calls })).1).messages } := by
  simp only [loopAux]
  rw [hc]
  dsimp only
  rw [if_neg (by simp [hne])]

/-- The loop body invariant behind `agent_loop_exhaustion`, by induction on
the remaining iteration budget. -/
theorem loopAux_exhaustion (env : LoopEnv) (rid : String)
    (halways : ∀ ms, ∃ calls, (env.llm ms).tool_calls = some calls ∧ calls ≠ []) :
    ∀ (n : Nat) (msgs : List ConversationMessage),
      (loopAux env rid n msgs).answer = exhaustedMessage ∧
      (loopAux env rid n msgs).llmCalls = n ∧
      ((∀ ms l, (env.llm ms).tool_calls = some l → l.length ≤ 1) →
        (loopAux env rid n msgs).execCalls ≤ n) := by
  intro n
  induction n with
  | zero => exact fun msgs => ⟨rfl, rfl, fun _ => Nat.le_refl 0⟩
  | succ n ih =>
    intro msgs
    obtain ⟨calls, hc, hne⟩ := halways msgs
    rw [loopAux_succ_toolcalls env rid n msgs calls hc hne]
    have hsub := ih (runToolCalls env rid calls (addMessagePrune env.max_length msgs
      { role := "assistant"
        content := (env.llm msgs).content.getD ""
        tool_calls := some calls })).1
    refine ⟨hsub.1, by rw [hsub.2.1], ?_⟩
    intro hone
    dsimp only
    have h1 := hsub.2.2 hone
    have h2 := runToolCalls_count_le env rid calls
      (addMessagePrune env.max_length msgs
        { role := "assistant"
          content := (env.llm msgs).content.getD ""
          tool_calls := some calls })
    have h3 : calls.length ≤ 1 := hone msgs calls hc
    omega

/-- C4 (amended): with a model that requests tool calls on every turn, the
loop makes exactly `maxIterations` model calls and then returns the canned
exhaustion message as an ordinary value (graceful degradation, no
exception); the execution client's `execute` is called at most once per
requested tool call, hence at most `maxIterations` times **when every turn
requests at most one tool call**. (The unconditional "at most
`maxIterations`" bound of the original claim fails for turns carrying
several tool calls: see `agent_loop_exec_bound_counterexample`.) -/
theorem agent_loop_exhaustion (env : LoopEnv) (request_id : String)
    (msgs : List ConversationMessage)
    (halways : ∀ ms, ∃ calls, (env.llm ms).tool_calls = some calls ∧ calls ≠ []) :
    (processWithTools env request_id msgs).answer = exhaustedMessage ∧
    (processWithTools env request_id msgs).llmCalls = env.max_tool_iterations ∧
    ((∀ ms l, (env.llm ms).tool_calls = some l → l.length ≤ 1) →
      (processWithTools env request_id msgs).execCalls ≤ env.max_tool_iterations) :=
  loopAux_exhaustion env request_id halways env.max_tool_iterations msgs

/-- A model tool-call request for `hr.get_employee` with already-decoded
(empty-dict) arguments. -/
def hrCallReq (i : String) : ToolCallRequest :=
  { id := i, name := "hr.get_employee", arguments := .dictArgs [] }

/-- A loop environment whose model requests exactly one tool call on every
turn, with a two-iteration budget. -/
def oneCallEnv : LoopEnv :=
  { llm := fun _ => { content := some "", tool_calls := some [hrCallReq "call-1"] }
    execClient := fun n _ _ => { tool_name := n, status := .success }
    parseJson := fun _ => none
    dumpJson := fun _ => "{}"
    max_tool_iterations := 2
    max_length := 50 }

/-- Witness for `agent_loop_exhaustion` at `oneCallEnv`. -/
theorem agent_loop_exhaustion_witness :
    (processWithTools oneCallEnv "req-2" []).answer = exhaustedMessage ∧
    (processWithTools oneCallEnv "req-2" []).llmCalls = oneCallEnv.max_tool_iterations ∧
    (processWithTools oneCallEnv "req-2" []).execCalls ≤ oneCallEnv.max_tool_iterations :=
  have h := agent_loop_exhaustion oneCallEnv "req-2" []
    (fun _ => ⟨[hrCallReq "call-1"], rfl, List.cons_ne_nil _ _⟩)
  ⟨h.1, h.2.1, h.2.2 (fun _ l hl => by injection hl with he; subst he; decide)⟩

/-- A loop environment whose model requests two tool calls on every turn,
with a one-iteration budget. -/
def twoCallEnv : LoopEnv :=
  { llm := fun _ =>
      { content := some "", tool_calls := some [hrCallReq "call-1", hrCallReq "call-2"] }
    execClient := fun n _ _ => { tool_name := n, status := .success }
    parseJson := fun _ => none
    dumpJson := fun _ => "{}"
    max_tool_iterations := 1
    max_length := 50 }

/-- C4 counterexample: a model that always requests two tool calls per turn
drives `maxIterations = 1` to exhaustion with exactly one model call, yet
the execution client is called twice — more than `maxIterations` times,
contradicting the claim's bound. -/
theorem agent_loop_exec_bound_counterexample :
    (processWithTools twoCallEnv "req-1" []).answer = exhaustedMessage ∧
    (processWithTools twoCallEnv "req-1" []).llmCalls = twoCallEnv.max_tool_iterations ∧
    (processWithTools twoCallEnv "req-1" []).execCalls = 2 ∧
    ¬ ((processWithTools twoCallEnv "req-1" []).execCalls ≤
        twoCallEnv.max_tool_iterations) := by
  refine ⟨rfl, rfl, rfl, by decide⟩

end MCP

